import Mathlib

/-!
Shallow embedding of the PhyToWeb extraction-normalization pipeline:
the LLM client retry loop (llm_client.py), the Textract block-graph
readers (text_extractor.py), the upload-dedup facade (s3_facade.py,
utils.py, redis_facade.py), and the serialization strategies.
Python dicts are modelled as insertion-ordered association lists with
overwrite-in-place insert, matching CPython dict semantics.
-/

namespace PhyToWeb

/-- Lookup in an association list: first binding wins (bindings are kept
unique by alistInsert, so this matches Python dict lookup). -/
def alistGet? {β : Type} : List (String × β) → String → Option β
  | [], _ => none
  | (k', v) :: rest, k => if k' = k then some v else alistGet? rest k

/-- Lookup with a default, matching Python dict.get(key, default). -/
def alistGetD {β : Type} (m : List (String × β)) (k : String) (d : β) : β :=
  (alistGet? m k).getD d

/-- Insert matching Python dict assignment: an existing key keeps its
position and gets the new value; a fresh key is appended. -/
def alistInsert {β : Type} : List (String × β) → String → β → List (String × β)
  | [], k, v => [(k, v)]
  | (k', v') :: rest, k, v =>
      if k' = k then (k, v) :: rest else (k', v') :: alistInsert rest k v

/-- Keys of an association list, in order. -/
def alistKeys {β : Type} (m : List (String × β)) : List String :=
  m.map Prod.fst

theorem alistGet?_insert_self {β : Type} (m : List (String × β)) (k : String) (v : β) :
    alistGet? (alistInsert m k v) k = some v := by
  induction m with
  | nil => simp [alistInsert, alistGet?]
  | cons hd tl ih =>
      obtain ⟨k', v'⟩ := hd
      by_cases h : k' = k
      · simp [alistInsert, alistGet?, h]
      · simp [alistInsert, alistGet?, h, ih]

theorem alistGet?_insert_ne {β : Type} (m : List (String × β)) (k k' : String) (v : β)
    (h : k ≠ k') : alistGet? (alistInsert m k v) k' = alistGet? m k' := by
  induction m with
  | nil => simp [alistInsert, alistGet?, h]
  | cons hd tl ih =>
      obtain ⟨k0, v0⟩ := hd
      by_cases h0 : k0 = k
      · subst h0
        simp [alistInsert, alistGet?, h]
      · simp only [alistInsert, if_neg h0]
        by_cases h1 : k0 = k'
        · simp [alistGet?, h1]
        · simp [alistGet?, h1, ih]

theorem mem_alistKeys_insert {β : Type} {m : List (String × β)} {k a : String} {v : β} :
    a ∈ alistKeys (alistInsert m k v) ↔ a ∈ alistKeys m ∨ a = k := by
  induction m with
  | nil => simp [alistInsert, alistKeys]
  | cons hd tl ih =>
      obtain ⟨k0, v0⟩ := hd
      by_cases h0 : k0 = k
      · subst h0
        simp [alistInsert, alistKeys]
        tauto
      · simp only [alistInsert, if_neg h0, alistKeys, List.map_cons, List.mem_cons]
        constructor
        · rintro (h | h)
          · exact Or.inl (Or.inl h)
          · rcases ih.mp h with h | h
            · exact Or.inl (Or.inr h)
            · exact Or.inr h
        · rintro ((h | h) | h)
          · exact Or.inl h
          · exact Or.inr (ih.mpr (Or.inl h))
          · exact Or.inr (ih.mpr (Or.inr h))

theorem alistKeys_nodup_insert {β : Type} {m : List (String × β)} {k : String} {v : β}
    (h : (alistKeys m).Nodup) : (alistKeys (alistInsert m k v)).Nodup := by
  induction m with
  | nil => simp [alistInsert, alistKeys]
  | cons hd tl ih =>
      obtain ⟨k0, v0⟩ := hd
      simp only [alistKeys, List.map_cons, List.nodup_cons] at h
      by_cases h0 : k0 = k
      · subst h0
        simpa [alistInsert, alistKeys, List.nodup_cons] using h
      · simp only [alistInsert, if_neg h0, alistKeys, List.map_cons, List.nodup_cons]
        refine ⟨fun hmem => ?_, ih h.2⟩
        rcases (mem_alistKeys_insert).mp hmem with hm | hm
        · exact h.1 hm
        · exact h0 hm

theorem alistGet?_eq_none_of_not_mem {β : Type} {m : List (String × β)} {k : String}
    (h : k ∉ alistKeys m) : alistGet? m k = none := by
  induction m with
  | nil => simp [alistGet?]
  | cons hd tl ih =>
      obtain ⟨k0, v0⟩ := hd
      simp only [alistKeys, List.map_cons, List.mem_cons] at h
      push_neg at h
      have hne : k0 ≠ k := fun h' => h.1 h'.symm
      have h2 : k ∉ alistKeys tl := by simpa [alistKeys] using h.2
      simp [alistGet?, hne, ih h2]

/-! Outcome of one attempt of the LLM client: the model call followed by
serialization and output validation either succeeds with a serialized
value, raises a ValidationError, or raises some other exception.
This abstracts the provider boundary of LLMClient.invoke. -/

inductive AttemptOutcome (α ε : Type) where
  | success (v : α)
  | validationError (e : ε)
  | otherError (e : ε)

/-- LLMProcessingError from llm_client.py: a message and the original error. -/
structure ProcessingError (ε : Type) where
  message : String
  cause : Option ε

/-- Result of LLMClient.invoke: the returned value or raised error, the
sequence of time.sleep durations performed, and how many times the model
was invoked. -/
structure InvokeResult (α ε : Type) where
  result : Except (ProcessingError ε) α
  sleeps : List Nat
  calls : Nat

/-- The retry loop body of LLMClient.invoke. `attempt` is the 0-based loop
index, `fuel` the number of loop iterations remaining
(maxRetries - attempt). On success the serialized value is returned; a
ValidationError on the final attempt raises LLMProcessingError
"Validation failed for LLM response"; any other exception on the final
attempt raises "Max retries exceeded"; otherwise the client sleeps
retryDelay * (attempt + 1) (no sleep after a ValidationError) and
retries. -/
def invokeGo {α ε : Type} (maxRetries retryDelay : Nat)
    (attempts : Nat → AttemptOutcome α ε) : Nat → Nat → InvokeResult α ε
  | _, 0 => ⟨Except.error ⟨"invoke loop exhausted", none⟩, [], 0⟩
  | attempt, fuel + 1 =>
      match attempts attempt with
      | AttemptOutcome.success v => ⟨Except.ok v, [], 1⟩
      | AttemptOutcome.validationError e =>
          if attempt = maxRetries - 1 then
            ⟨Except.error ⟨"Validation failed for LLM response", some e⟩, [], 1⟩
          else
            let r := invokeGo maxRetries retryDelay attempts (attempt + 1) fuel
            ⟨r.result, r.sleeps, r.calls + 1⟩
      | AttemptOutcome.otherError e =>
          if attempt = maxRetries - 1 then
            ⟨Except.error ⟨"Max retries exceeded", some e⟩, [], 1⟩
          else
            let r := invokeGo maxRetries retryDelay attempts (attempt + 1) fuel
            ⟨r.result, retryDelay * (attempt + 1) :: r.sleeps, r.calls + 1⟩

/-- LLMClient.invoke with the constructor-fixed budget max_retries = 3 and
retry_delay = 2. -/
def LLMClient.invoke {α ε : Type} (attempts : Nat → AttemptOutcome α ε) :
    InvokeResult α ε :=
  invokeGo 3 2 attempts 0 3

/-- Causes that process_form_data can wrap: the invalid-input ValueError
raised by its own precondition check, the KeyError of a data_schema_key
unrecognized by DATA_SCHEMA_MAPPER, a schema-preparation failure of the
JSON-schema strategy, or an error from the LLM layer. -/
inductive PFDCause (ε : Type) where
  | valueError (message : String)
  | keyError (key : Option String)
  | prepareError (e : ε)
  | llmCause (e : ε)

/-- Result of process_form_data: the returned value or raised
LLMProcessingError, and how many times the model was invoked. -/
structure PFDResult (α ε : Type) where
  result : Except (ProcessingError (PFDCause ε)) α
  modelCalls : Nat

/-- The pydantic model classes that the typed-record strategy can be
configured with (Resume, Card, FormDataSchema from models). -/
inductive PydanticSchema where
  | resume
  | card
  | formDataSchema

/-- DATA_SCHEMA_MAPPER from llm_client.py: the static lookup table from
data_schema_key to the predeclared pydantic model class. -/
def DATA_SCHEMA_MAPPER : List (String × PydanticSchema) :=
  [("resume", PydanticSchema.resume), ("card", PydanticSchema.card),
   ("registration_for_ngo_npo", PydanticSchema.formDataSchema)]

/-- The invoke step of process_form_data: run LLMClient.invoke and
translate its outcome through the surrounding handlers (an
LLMProcessingError raised by invoke is re-raised as-is by the
`except LLMProcessingError` handler). -/
def runInvoke {α ε : Type} (attempts : Nat → AttemptOutcome α ε) : PFDResult α ε :=
  let r := LLMClient.invoke attempts
  match r.result with
  | Except.ok v => ⟨Except.ok v, r.calls⟩
  | Except.error pe =>
      ⟨Except.error ⟨pe.message, pe.cause.map PFDCause.llmCause⟩, r.calls⟩

/-- process_form_data from llm_client.py. Its only input check is
`if input_content is None`; the raised ValueError is caught by the
catch-all handler and re-raised as LLMProcessingError "Processing failed".
Then the strategy is selected: under use_pydantic the model class is
looked up in DATA_SCHEMA_MAPPER, and the KeyError for an unrecognized (or
None) key is likewise wrapped into "Processing failed" before any model
call; without use_pydantic a JsonSchemaStrategy for "<key>.json" is built
(f-string rendering None as "None") and prepare_llm downloads that
schema, a failure again wrapped into "Processing failed" with zero model
calls. Only then does LLMClient.invoke drive the model, whose per-attempt
outcomes the oracle `attempts` abstracts. -/
def process_form_data {α ε : Type} (data_schema_key : Option String)
    (use_pydantic : Bool) (input_content : Option String)
    (downloadSchema : String → Except ε Unit)
    (attempts : Nat → AttemptOutcome α ε) : PFDResult α ε :=
  match input_content with
  | none =>
      ⟨Except.error ⟨"Processing failed",
        some (PFDCause.valueError
          "Input content must be provided. input_content cannot be None.")⟩, 0⟩
  | some _ =>
      if use_pydantic then
        match data_schema_key with
        | none =>
            ⟨Except.error ⟨"Processing failed",
              some (PFDCause.keyError none)⟩, 0⟩
        | some key =>
            match alistGet? DATA_SCHEMA_MAPPER key with
            | none =>
                ⟨Except.error ⟨"Processing failed",
                  some (PFDCause.keyError (some key))⟩, 0⟩
            | some _ => runInvoke attempts
      else
        match downloadSchema ((data_schema_key.getD "None") ++ ".json") with
        | Except.error e =>
            ⟨Except.error ⟨"Processing failed",
              some (PFDCause.prepareError e)⟩, 0⟩
        | Except.ok _ => runInvoke attempts

/-! Textract block model (text_extractor.py). A block carries a type tag,
an id, optional text and selection status payloads, entity types (for
KEY_VALUE_SET blocks), and relationships to other block ids. -/

inductive RelType where
  | child
  | value
deriving DecidableEq

structure Relationship where
  relType : RelType
  ids : List String

structure Block where
  id : String
  blockType : String
  text : Option String
  selectionStatus : Option String
  entityTypes : List String
  relationships : Option (List Relationship)

/-- Python " ".join over a list of strings. -/
def joinSpace : List String → String
  | [] => ""
  | x :: xs => xs.foldl (fun acc s => acc ++ " " ++ s) x

/-- The key-label loop of extract_form_fields_advanced: key_text starts as
"" and, when Relationships is present, each CHILD relation overwrites it
with the space-join of the word_map lookups of its ids (missing ids
resolve to ""). -/
def keyLabelText (wordMap : List (String × String)) (b : Block) : String :=
  (b.relationships.getD []).foldl
    (fun acc r =>
      if r.relType = RelType.child then
        joinSpace (r.ids.map fun i => alistGetD wordMap i "")
      else acc) ""

/-- The value-ids loop: value_ids starts as [] and each VALUE relation of
the block overwrites it with that relation's id list. -/
def keyValueIds (b : Block) : List String :=
  (b.relationships.getD []).foldl
    (fun acc r => if r.relType = RelType.value then r.ids else acc) []

/-- The VALUE-branch loop: when Relationships is present, each CHILD
relation overwrites the pending value text for the block's id with the
space-join of the word_map lookups of its ids; with no CHILD relation no
entry is written. -/
def valueBlockText (wordMap : List (String × String)) (b : Block) : Option String :=
  match b.relationships with
  | none => none
  | some rels =>
      rels.foldl
        (fun acc r =>
          if r.relType = RelType.child then
            some (joinSpace (r.ids.map fun i => alistGetD wordMap i ""))
          else acc) none

/-- One iteration of the first pass of extract_form_fields_advanced over a
single block, updating (key_map, value_map). -/
def firstPassStep (wordMap : List (String × String))
    (maps : List (String × List String) × List (String × String)) (b : Block) :
    List (String × List String) × List (String × String) :=
  if b.blockType = "KEY_VALUE_SET" then
    if "KEY" ∈ b.entityTypes then
      (if keyLabelText wordMap b ≠ "" then
        (alistInsert maps.1 (keyLabelText wordMap b) (keyValueIds b), maps.2)
      else maps)
    else if "VALUE" ∈ b.entityTypes then
      (match valueBlockText wordMap b with
       | some vt => (maps.1, alistInsert maps.2 b.id vt)
       | none => maps)
    else maps
  else maps

/-- First pass of extract_form_fields_advanced: build key_map
(label text -> value-block id list) and value_map
(value-block id -> resolved text) from the block list. -/
def firstPass (blocks : List Block) (wordMap : List (String × String)) :
    List (String × List String) × List (String × String) :=
  blocks.foldl (firstPassStep wordMap) ([], [])

/-- ASCII whitespace as recognized by Python str.strip(). -/
def isPyWhitespace (c : Char) : Bool :=
  c = ' ' || c = '\t' || c = '\n' || c = '\r' || c = '\x0b' || c = '\x0c'

/-- Drop leading whitespace characters. -/
def dropLeadingWs : List Char → List Char
  | [] => []
  | c :: rest => if isPyWhitespace c then dropLeadingWs rest else c :: rest

/-- Python str.strip(): remove whitespace from both ends. -/
def pyStrip (s : String) : String :=
  ⟨(dropLeadingWs (dropLeadingWs s.toList).reverse).reverse⟩

/-- The joined field value of the second pass: each value-block id is
looked up in value_map with default "N/A", the fragments are joined with
a single space, and the result is stripped. -/
def fieldValue (vm : List (String × String)) (vids : List String) : String :=
  pyStrip (joinSpace (vids.map fun vid => alistGetD vm vid "N/A"))

/-- extract_form_fields_advanced from text_extractor.py: two passes, the
first classifying KEY_VALUE_SET blocks into key and value maps, the
second combining them into the final label -> value mapping. -/
def extract_form_fields_advanced (blocks : List Block)
    (wordMap : List (String × String)) : List (String × String) :=
  let maps := firstPass blocks wordMap
  maps.1.foldl (fun fm kv => alistInsert fm kv.1 (fieldValue maps.2 kv.2)) []

/-- extract_text_by_type from text_extractor.py: scan the block list in
order, collecting the Text field of every block whose BlockType equals the
requested tag; a matching block without a Text field raises (KeyError,
wrapped into the function's error message). -/
def extract_text_by_type (blocks : List Block) (bt : String) :
    Except String (List String) :=
  match blocks with
  | [] => Except.ok []
  | b :: rest =>
      if b.blockType = bt then
        match b.text with
        | some t => (extract_text_by_type rest bt).map (fun l => t :: l)
        | none =>
            Except.error
              ("Error occurred while extracting text by type " ++ bt ++ " -> KeyError")
      else extract_text_by_type rest bt

/-- The key_map component of a first-pass step is either unchanged or a
single insert. -/
theorem firstPassStep_km (wordMap : List (String × String))
    (maps : List (String × List String) × List (String × String)) (b : Block) :
    (firstPassStep wordMap maps b).1 = maps.1 ∨
    ∃ k v, (firstPassStep wordMap maps b).1 = alistInsert maps.1 k v := by
  unfold firstPassStep
  split
  · split
    · split
      · exact Or.inr ⟨_, _, rfl⟩
      · exact Or.inl rfl
    · split
      · split
        · exact Or.inl rfl
        · exact Or.inl rfl
      · exact Or.inl rfl
  · exact Or.inl rfl

/-- Key presence in key_map is preserved by every first-pass step. -/
theorem firstPassStep_mem (wordMap : List (String × String))
    (maps : List (String × List String) × List (String × String)) (b : Block)
    (k : String) (h : k ∈ alistKeys maps.1) :
    k ∈ alistKeys (firstPassStep wordMap maps b).1 := by
  rcases firstPassStep_km wordMap maps b with heq | ⟨k', v', heq⟩
  · rwa [heq]
  · rw [heq]
    exact mem_alistKeys_insert.mpr (Or.inl h)

/-- Nodup of key_map keys is preserved by every first-pass step. -/
theorem firstPassStep_nodup (wordMap : List (String × String))
    (maps : List (String × List String) × List (String × String)) (b : Block)
    (h : (alistKeys maps.1).Nodup) :
    (alistKeys (firstPassStep wordMap maps b).1).Nodup := by
  rcases firstPassStep_km wordMap maps b with heq | ⟨k', v', heq⟩
  · rwa [heq]
  · rw [heq]
    exact alistKeys_nodup_insert h

/-- Key presence in key_map is preserved by the whole first-pass fold. -/
theorem firstPass_fold_mem (wordMap : List (String × String)) :
    ∀ (blocks : List Block)
      (maps : List (String × List String) × List (String × String)) (k : String),
      k ∈ alistKeys maps.1 →
      k ∈ alistKeys (blocks.foldl (firstPassStep wordMap) maps).1
  | [], _, _, h => h
  | b :: rest, maps, k, h =>
      firstPass_fold_mem wordMap rest (firstPassStep wordMap maps b) k
        (firstPassStep_mem wordMap maps b k h)

/-- The key_map produced by the first pass has pairwise distinct keys. -/
theorem firstPass_fold_nodup (wordMap : List (String × String)) :
    ∀ (blocks : List Block)
      (maps : List (String × List String) × List (String × String)),
      (alistKeys maps.1).Nodup →
      (alistKeys (blocks.foldl (firstPassStep wordMap) maps).1).Nodup
  | [], _, h => h
  | b :: rest, maps, h =>
      firstPass_fold_nodup wordMap rest (firstPassStep wordMap maps b)
        (firstPassStep_nodup wordMap maps b h)

/-- Every KEY_VALUE_SET block of entity type KEY with a non-empty label
contributes an entry for that label to the key_map of the first pass. -/
theorem firstPass_fold_key_present (wordMap : List (String × String)) :
    ∀ (blocks : List Block)
      (maps : List (String × List String) × List (String × String)) (b : Block),
      b ∈ blocks → b.blockType = "KEY_VALUE_SET" → "KEY" ∈ b.entityTypes →
      keyLabelText wordMap b ≠ "" →
      keyLabelText wordMap b ∈
        alistKeys (blocks.foldl (firstPassStep wordMap) maps).1 := by
  intro blocks
  induction blocks with
  | nil => intro maps b hb; exact absurd hb (List.not_mem_nil b)
  | cons hd rest ih =>
      intro maps b hb htype hkey hlabel
      rcases List.mem_cons.mp hb with rfl | hb'
      · rw [List.foldl_cons]
        apply firstPass_fold_mem wordMap rest (firstPassStep wordMap maps b)
        have : (firstPassStep wordMap maps b).1 =
            alistInsert maps.1 (keyLabelText wordMap b) (keyValueIds b) := by
          unfold firstPassStep
          rw [if_pos htype, if_pos hkey, if_pos hlabel]
        rw [this]
        exact mem_alistKeys_insert.mpr (Or.inr rfl)
      · exact ih (firstPassStep wordMap maps hd) b hb' htype hkey hlabel

/-- Looking up a key in the result of the second-pass fold: when the
key_map has distinct keys, the final entry for a key present in key_map is
the image of its value under the combining function, and a key absent
from key_map falls through to the initial accumulator. -/
theorem secondPass_fold_lookup {β : Type} (f : List String → β) :
    ∀ (km : List (String × List String)) (fm : List (String × β)) (k : String),
      (alistKeys km).Nodup →
      alistGet? (km.foldl (fun acc kv => alistInsert acc kv.1 (f kv.2)) fm) k =
        (match alistGet? km k with
         | some v => some (f v)
         | none => alistGet? fm k) := by
  intro km
  induction km with
  | nil => intro fm k _; simp [alistGet?]
  | cons hd rest ih =>
      intro fm k hnd
      obtain ⟨k0, v0⟩ := hd
      simp only [alistKeys, List.map_cons, List.nodup_cons] at hnd
      have hrest : (alistKeys rest).Nodup := hnd.2
      simp only [List.foldl_cons]
      rw [ih (alistInsert fm k0 (f v0)) k hrest]
      by_cases hk : k0 = k
      · subst hk
        have hnone : alistGet? rest k0 = none :=
          alistGet?_eq_none_of_not_mem (by simpa [alistKeys] using hnd.1)
        simp [alistGet?, hnone, alistGet?_insert_self]
      · simp only [alistGet?, if_neg hk]
        cases hrv : alistGet? rest k
        · simp [alistGet?_insert_ne fm k0 k (f v0) hk]
        · simp

/-- C3: for every block list whose first-pass key_map assigns a key the
value-id list vids, with some vid in vids missing from the value_map, the
final form-field value for that key substitutes the sentinel "N/A" for the
missing id and equals the space-join of the per-id value_map lookups
(default "N/A"), trimmed; moreover every KEY_VALUE_SET block of entity
type KEY with a non-empty label has an entry in the key_map. -/
theorem C3_missing_value_id_sentinel (blocks : List Block)
    (wordMap : List (String × String)) (k : String) (vids : List String)
    (vid : String)
    (hk : alistGet? (firstPass blocks wordMap).1 k = some vids)
    (_hvid : vid ∈ vids)
    (hmiss : alistGet? (firstPass blocks wordMap).2 vid = none) :
    alistGetD (firstPass blocks wordMap).2 vid "N/A" = "N/A" ∧
    alistGet? (extract_form_fields_advanced blocks wordMap) k =
      some (pyStrip (joinSpace (vids.map fun i =>
        alistGetD (firstPass blocks wordMap).2 i "N/A"))) ∧
    (∀ b ∈ blocks, b.blockType = "KEY_VALUE_SET" → "KEY" ∈ b.entityTypes →
      keyLabelText wordMap b ≠ "" →
      keyLabelText wordMap b ∈ alistKeys (firstPass blocks wordMap).1) := by
  refine ⟨?_, ?_, ?_⟩
  · simp [alistGetD, hmiss]
  · have hnd : (alistKeys (firstPass blocks wordMap).1).Nodup :=
      firstPass_fold_nodup wordMap blocks ([], []) (by simp [alistKeys])
    unfold extract_form_fields_advanced
    rw [secondPass_fold_lookup (fieldValue (firstPass blocks wordMap).2)
      (firstPass blocks wordMap).1 [] k hnd, hk]
    rfl
  · intro b hb htype hkey hlabel
    exact firstPass_fold_key_present wordMap blocks ([], []) b hb htype hkey hlabel

/-- Witness for C3 at a concrete block list: a KEY block labelled "Name"
whose VALUE relationship names an id with no VALUE block, producing the
field value "N/A". -/
theorem C3_missing_value_id_sentinel_witness :
    alistGet? (extract_form_fields_advanced
        [⟨"k1", "KEY_VALUE_SET", none, none, ["KEY"],
          some [⟨RelType.child, ["w1"]⟩, ⟨RelType.value, ["missing"]⟩]⟩]
        [("w1", "Name")]) "Name" = some "N/A" := by
  have h := (C3_missing_value_id_sentinel
      [⟨"k1", "KEY_VALUE_SET", none, none, ["KEY"],
        some [⟨RelType.child, ["w1"]⟩, ⟨RelType.value, ["missing"]⟩]⟩]
      [("w1", "Name")] "Name" ["missing"] "missing" rfl (by simp) rfl).2.1
  exact h

/-- Last index of a character (Python str.rfind), -1 when absent. -/
def rfindGo (c : Char) : List Char → Nat → Int → Int
  | [], _, best => best
  | ch :: rest, i, best => rfindGo c rest (i + 1) (if ch = c then (i : Int) else best)

/-- Python str.rfind specialized to a single character. -/
def rfind (s : String) (c : Char) : Int := rfindGo c s.toList 0 (-1)

/-- os.path.splitext: split off the extension at the last dot, provided
that dot comes after the last path separator and at least one non-dot
character stands between the separator and that dot (so names whose
basename starts with dots only have no extension). -/
def splitext (p : String) : String × String :=
  let cs := p.toList
  let sepIndex := rfind p '/'
  let dotIndex := rfind p '.'
  if sepIndex < dotIndex then
    let start := (sepIndex + 1).toNat
    let stop := dotIndex.toNat
    if (List.range (stop - start)).any (fun j => cs.getD (start + j) '.' != '.') then
      (⟨cs.take stop⟩, ⟨cs.drop stop⟩)
    else (p, "")
  else (p, "")

/-- ASCII lower-casing of one character, as str.lower acts on ASCII. -/
def lowerChar (c : Char) : Char :=
  if 65 ≤ c.toNat ∧ c.toNat ≤ 90 then Char.ofNat (c.toNat + 32) else c

/-- ASCII lower-casing of a string. -/
def lowerString (s : String) : String := ⟨s.toList.map lowerChar⟩

/-- The extension allow-list of utils.py. -/
def ALLOWED_EXTENSIONS : List String :=
  [".pdf", ".docx", ".txt", ".jpg", ".jpeg", ".png"]

/-- Membership in the character class of the filename regex:
letters, digits, underscore, hyphen, period. -/
def validChar (c : Char) : Bool :=
  decide ((97 ≤ c.toNat ∧ c.toNat ≤ 122) ∨ (65 ≤ c.toNat ∧ c.toNat ≤ 90) ∨
    (48 ≤ c.toNat ∧ c.toNat ≤ 57) ∨ c = '_' ∨ c = '-' ∨ c = '.')

/-- is_valid_filename from utils.py: the lower-cased extension must be in
the allow-list, the length at most 255, and every character in the
regex class (with at least one character, as the regex uses +). -/
def is_valid_filename (file_name : String) : Bool :=
  if ALLOWED_EXTENSIONS.contains (lowerString (splitext file_name).2) = false then
    false
  else if 255 < file_name.length then false
  else if file_name.toList ≠ [] ∧ file_name.toList.all validChar = true then true
  else false

/-- Deterministic injective stand-in for the SHA-256 hex digest of
get_file_hash over the (opaque, Nat-coded) file content. -/
def get_file_hash (content : Nat) : String := "sha256-" ++ toString content

/-- A dedup-cache entry: the stored file name and the TTL seconds
(redis set_cache stores with its default ttl = 3600). -/
structure CacheEntry where
  name : String
  ttl : Nat

/-- External state touched by S3Facade.upload_pdf_form_with_caching:
the redis cache keyed by content hash and the S3 bucket contents. -/
structure S3State where
  cache : List (String × CacheEntry)
  bucket : List (String × Nat)

/-- Which observable operations a call of upload_pdf_form_with_caching
performed. -/
structure UploadOps where
  hashComputed : Bool
  cacheChecked : Bool
  uploadPerformed : Bool

/-- S3Facade.upload_pdf_form_with_caching: validate the filename first
(raising ValueError on failure before any hashing, cache lookup or
upload); then hash the content; on a cache hit return the previously
stored name without uploading; on a miss put the object, record
hash -> (name, ttl 3600) in the cache, and return the new name. -/
def upload_pdf_form_with_caching (st : S3State) (content : Nat) (file_name : String) :
    Except String String × S3State × UploadOps :=
  if is_valid_filename file_name then
    let file_hash := get_file_hash content
    match alistGet? st.cache file_hash with
    | some entry => (Except.ok entry.name, st, ⟨true, true, false⟩)
    | none =>
        let st' : S3State :=
          ⟨alistInsert st.cache file_hash ⟨file_name, 3600⟩,
           alistInsert st.bucket file_name content⟩
        (Except.ok file_name, st', ⟨true, true, true⟩)
  else
    (Except.error ("Invalid file name: " ++ file_name), st, ⟨false, false, false⟩)

/-- Outcome of the polling loop: the provider result returned on
SUCCEEDED or the exception raised on FAILED, plus the time.sleep
durations performed along the way. -/
structure PollOutcome (α : Type) where
  result : Except String α
  sleeps : List Nat

/-- A job status is terminal when it is SUCCEEDED or FAILED. -/
def isTerminalStatus (s : String) : Bool :=
  s == "SUCCEEDED" || s == "FAILED"

/-- The while-True loop of get_async_textract_results, checking the
provider-reported status at check number n, then n + 1, and so on. The
concrete loop is unbounded; fuel bounds how many status checks we unroll,
and none means the loop is still running after that many checks. After a
non-terminal status the loop sleeps 5 time-units. -/
def pollGo {α : Type} (statuses : Nat → String) (results : Nat → α) :
    Nat → Nat → Option (PollOutcome α)
  | _, 0 => none
  | n, fuel + 1 =>
      if statuses n = "SUCCEEDED" then some ⟨Except.ok (results n), []⟩
      else if statuses n = "FAILED" then
        some ⟨Except.error "Textract text detection failed.", []⟩
      else
        match pollGo statuses results (n + 1) fuel with
        | none => none
        | some o => some ⟨o.result, 5 :: o.sleeps⟩

/-- get_async_textract_results from text_extractor.py, with the status
and result sequences of the provider abstracted as oracles and the
unbounded loop indexed by fuel. -/
def get_async_textract_results {α : Type} (statuses : Nat → String)
    (results : Nat → α) (fuel : Nat) : Option (PollOutcome α) :=
  pollGo statuses results 0 fuel

theorem pollGo_succeeds {α : Type} (statuses : Nat → String) (results : Nat → α) :
    ∀ (k start fuel : Nat),
      (∀ m, m < k → isTerminalStatus (statuses (start + m)) = false) →
      statuses (start + k) = "SUCCEEDED" → k < fuel →
      pollGo statuses results start fuel =
        some ⟨Except.ok (results (start + k)), List.replicate k 5⟩ := by
  intro k
  induction k with
  | zero =>
      intro start fuel _ hs hf
      obtain ⟨fuel', rfl⟩ : ∃ f', fuel = f' + 1 := ⟨fuel - 1, by omega⟩
      rw [Nat.add_zero] at hs
      simp [pollGo, hs]
  | succ k ih =>
      intro start fuel h hs hf
      obtain ⟨fuel', rfl⟩ : ∃ f', fuel = f' + 1 := ⟨fuel - 1, by omega⟩
      have h0 : isTerminalStatus (statuses start) = false := by
        simpa using h 0 (Nat.succ_pos k)
      have h0s : statuses start ≠ "SUCCEEDED" := by
        intro hc
        simp [isTerminalStatus, hc] at h0
      have h0f : statuses start ≠ "FAILED" := by
        intro hc
        simp [isTerminalStatus, hc] at h0
      have hrec := ih (start + 1) fuel'
        (fun m hm => by
          have := h (m + 1) (by omega)
          rwa [show start + (m + 1) = start + 1 + m by omega] at this)
        (by rwa [show start + 1 + k = start + (k + 1) by omega])
        (by omega)
      rw [pollGo, if_neg h0s, if_neg h0f, hrec]
      rw [show start + 1 + k = start + (k + 1) by omega, List.replicate_succ]

theorem pollGo_fails {α : Type} (statuses : Nat → String) (results : Nat → α) :
    ∀ (k start fuel : Nat),
      (∀ m, m < k → isTerminalStatus (statuses (start + m)) = false) →
      statuses (start + k) = "FAILED" → k < fuel →
      pollGo statuses results start fuel =
        some ⟨Except.error "Textract text detection failed.",
          List.replicate k 5⟩ := by
  intro k
  induction k with
  | zero =>
      intro start fuel _ hs hf
      obtain ⟨fuel', rfl⟩ : ∃ f', fuel = f' + 1 := ⟨fuel - 1, by omega⟩
      rw [Nat.add_zero] at hs
      simp [pollGo, hs]
  | succ k ih =>
      intro start fuel h hs hf
      obtain ⟨fuel', rfl⟩ : ∃ f', fuel = f' + 1 := ⟨fuel - 1, by omega⟩
      have h0 : isTerminalStatus (statuses start) = false := by
        simpa using h 0 (Nat.succ_pos k)
      have h0s : statuses start ≠ "SUCCEEDED" := by
        intro hc
        simp [isTerminalStatus, hc] at h0
      have h0f : statuses start ≠ "FAILED" := by
        intro hc
        simp [isTerminalStatus, hc] at h0
      have hrec := ih (start + 1) fuel'
        (fun m hm => by
          have := h (m + 1) (by omega)
          rwa [show start + (m + 1) = start + 1 + m by omega] at this)
        (by rwa [show start + 1 + k = start + (k + 1) by omega])
        (by omega)
      rw [pollGo, if_neg h0s, if_neg h0f, hrec]
      rw [List.replicate_succ]

theorem pollGo_none_of_no_terminal {α : Type} (statuses : Nat → String)
    (results : Nat → α)
    (h : ∀ n, isTerminalStatus (statuses n) = false) :
    ∀ (fuel start : Nat), pollGo statuses results start fuel = none := by
  intro fuel
  induction fuel with
  | zero => intro start; rfl
  | succ fuel ih =>
      intro start
      have h0s : statuses start ≠ "SUCCEEDED" := by
        intro hc
        simp [isTerminalStatus, hc] at h
        exact (h start).1 hc
      have h0f : statuses start ≠ "FAILED" := by
        intro hc
        have := h start
        simp [isTerminalStatus, hc] at this
      rw [pollGo, if_neg h0s, if_neg h0f, ih (start + 1)]

/-- C7: the polling loop returns the provider result at the first
SUCCEEDED status, raises at the first FAILED status, sleeps a fixed 5
time-units after every non-terminal check (one sleep per preceding
non-terminal status), and terminates (for some fuel bound) if and only
if a terminal status eventually appears in the status sequence. -/
theorem C7_poll_until_terminal {α : Type} (statuses : Nat → String)
    (results : Nat → α) :
    (∀ n fuel, (∀ m, m < n → isTerminalStatus (statuses m) = false) →
      statuses n = "SUCCEEDED" → n < fuel →
      get_async_textract_results statuses results fuel =
        some ⟨Except.ok (results n), List.replicate n 5⟩) ∧
    (∀ n fuel, (∀ m, m < n → isTerminalStatus (statuses m) = false) →
      statuses n = "FAILED" → n < fuel →
      get_async_textract_results statuses results fuel =
        some ⟨Except.error "Textract text detection failed.",
          List.replicate n 5⟩) ∧
    ((∃ fuel, (get_async_textract_results statuses results fuel).isSome) ↔
      ∃ n, isTerminalStatus (statuses n) = true) := by
  refine ⟨?_, ?_, ?_, ?_⟩
  · intro n fuel h hs hf
    have := pollGo_succeeds statuses results n 0 fuel
      (by intro m hm; simpa using h m hm) (by simpa using hs) hf
    simpa [get_async_textract_results] using this
  · intro n fuel h hs hf
    have := pollGo_fails statuses results n 0 fuel
      (by intro m hm; simpa using h m hm) (by simpa using hs) hf
    simpa [get_async_textract_results] using this
  · rintro ⟨fuel, hsome⟩
    by_contra hnone
    push_neg at hnone
    have hall : ∀ n, isTerminalStatus (statuses n) = false :=
      fun n => Bool.eq_false_iff.mpr (hnone n)
    rw [get_async_textract_results,
      pollGo_none_of_no_terminal statuses results hall fuel 0] at hsome
    exact Bool.false_ne_true hsome
  · rintro ⟨n, hn⟩
    have hex : ∃ m, isTerminalStatus (statuses m) = true := ⟨n, hn⟩
    classical
    let n0 := Nat.find hex
    have hn0 : isTerminalStatus (statuses n0) = true := Nat.find_spec hex
    have hlt : ∀ m, m < n0 → isTerminalStatus (statuses m) = false :=
      fun m hm => Bool.eq_false_iff.mpr (Nat.find_min hex hm)
    refine ⟨n0 + 1, ?_⟩
    rcases (by simpa [isTerminalStatus] using hn0 :
        statuses n0 = "SUCCEEDED" ∨ statuses n0 = "FAILED") with hs | hs
    · have := pollGo_succeeds statuses results n0 0 (n0 + 1)
        (by intro m hm; simpa using hlt m hm) (by simpa using hs)
        (Nat.lt_succ_self n0)
      simp [get_async_textract_results, this]
    · have := pollGo_fails statuses results n0 0 (n0 + 1)
        (by intro m hm; simpa using hlt m hm) (by simpa using hs)
        (Nat.lt_succ_self n0)
      simp [get_async_textract_results, this]

/-- Witness for C7: a status sequence that is IN_PROGRESS twice and then
SUCCEEDED returns the third provider result after two 5-unit sleeps. -/
theorem C7_poll_until_terminal_witness :
    get_async_textract_results
        (fun n => if n = 2 then "SUCCEEDED" else "IN_PROGRESS")
        (fun n => n) 3 =
      some ⟨Except.ok 2, List.replicate 2 5⟩ :=
  (C7_poll_until_terminal
      (fun n => if n = 2 then "SUCCEEDED" else "IN_PROGRESS")
      (fun n => n)).1 2 3
    (by intro m hm; interval_cases m <;> rfl) rfl (by omega)

/-- C5: for two uploads of byte-identical content under valid target
names, where the content hash is initially absent from the cache: the
first call uploads, stores hash -> (name1, ttl 3600), and returns name1;
the second call returns name1 unchanged, performs no upload, and leaves
the state untouched. -/
theorem C5_dedup_second_upload_returns_first_name (st : S3State) (content : Nat)
    (name1 name2 : String)
    (h1 : is_valid_filename name1 = true)
    (h2 : is_valid_filename name2 = true)
    (habs : alistGet? st.cache (get_file_hash content) = none) :
    (upload_pdf_form_with_caching st content name1).1 = Except.ok name1 ∧
    (upload_pdf_form_with_caching st content name1).2.2.uploadPerformed = true ∧
    alistGet? (upload_pdf_form_with_caching st content name1).2.1.cache
        (get_file_hash content) = some ⟨name1, 3600⟩ ∧
    (upload_pdf_form_with_caching
        (upload_pdf_form_with_caching st content name1).2.1 content name2).1 =
      Except.ok name1 ∧
    (upload_pdf_form_with_caching
        (upload_pdf_form_with_caching st content name1).2.1
        content name2).2.2.uploadPerformed = false ∧
    (upload_pdf_form_with_caching
        (upload_pdf_form_with_caching st content name1).2.1 content name2).2.1 =
      (upload_pdf_form_with_caching st content name1).2.1 := by
  simp [upload_pdf_form_with_caching, h1, h2, habs, alistGet?_insert_self]

/-- Witness for C5: the same bytes uploaded as "a.pdf" then "b.pdf" yield
"a.pdf" both times. -/
theorem C5_dedup_second_upload_returns_first_name_witness :
    (upload_pdf_form_with_caching
        (upload_pdf_form_with_caching ⟨[], []⟩ 7 "a.pdf").2.1 7 "b.pdf").1 =
      Except.ok "a.pdf" :=
  (C5_dedup_second_upload_returns_first_name ⟨[], []⟩ 7 "a.pdf" "b.pdf"
    rfl rfl rfl).2.2.2.1

/-- C6: a file name with a disallowed extension, or longer than 255
characters, or containing a character outside the class of letters,
digits, underscore, hyphen and period, fails filename validation, and
upload_pdf_form_with_caching then fails with the invalid-filename
ValueError before computing the hash, before any cache lookup and before
any upload, leaving the state unchanged. -/
theorem C6_invalid_filename_rejected_early (st : S3State) (content : Nat)
    (name : String)
    (h : ALLOWED_EXTENSIONS.contains (lowerString (splitext name).2) = false ∨
         255 < name.length ∨
         ∃ c ∈ name.toList, validChar c = false) :
    is_valid_filename name = false ∧
    (upload_pdf_form_with_caching st content name).1 =
      Except.error ("Invalid file name: " ++ name) ∧
    (upload_pdf_form_with_caching st content name).2.1 = st ∧
    (upload_pdf_form_with_caching st content name).2.2 = ⟨false, false, false⟩ := by
  have hfalse : is_valid_filename name = false := by
    unfold is_valid_filename
    by_cases hext :
        ALLOWED_EXTENSIONS.contains (lowerString (splitext name).2) = false
    · rw [if_pos hext]
    · rw [if_neg hext]
      by_cases hlen : 255 < name.length
      · rw [if_pos hlen]
      · rw [if_neg hlen]
        rcases h with h | h | ⟨c, hc, hcf⟩
        · exact absurd h hext
        · exact absurd h hlen
        · have hall : name.toList.all validChar = false := by
            apply Bool.eq_false_iff.mpr
            intro htrue
            have := List.all_eq_true.mp htrue c hc
            rw [hcf] at this
            exact Bool.false_ne_true this
          rw [if_neg]
          intro hcontra
          rw [hall] at hcontra
          exact Bool.false_ne_true hcontra.2
  refine ⟨hfalse, ?_, ?_, ?_⟩ <;>
    simp only [upload_pdf_form_with_caching, hfalse, Bool.false_eq_true,
      if_false]

/-- Witness for C6 at the file name "report.exe". -/
theorem C6_invalid_filename_rejected_early_witness :
    (upload_pdf_form_with_caching ⟨[], []⟩ 7 "report.exe").1 =
      Except.error ("Invalid file name: " ++ "report.exe") :=
  (C6_invalid_filename_rejected_early ⟨[], []⟩ 7 "report.exe"
    (Or.inl rfl)).2.1

/-- C4 counterexample: a KEY_VALUE_SET block of entity type KEY with the
non-empty label "Name" and no VALUE relationship is assigned the empty
string by extract_form_fields_advanced, not the sentinel "N/A": the
empty value-id list joins to "" and stripping leaves "". -/
theorem C4_no_value_edge_counterexample :
    alistGet? (extract_form_fields_advanced
        [⟨"k1", "KEY_VALUE_SET", none, none, ["KEY"],
          some [⟨RelType.child, ["w1"]⟩]⟩]
        [("w1", "Name")]) "Name" = some "" ∧ ("" : String) ≠ "N/A" := by
  exact ⟨rfl, by decide⟩

/-- C4 amended: a KEY_VALUE_SET block of entity type KEY with non-empty
label text and no VALUE relationship contributes an empty value-id list,
and a key whose key_map entry is the empty list is assigned the empty
string "" (not "N/A") in the final form-field mapping. -/
theorem C4_no_value_edge_empty_string (blocks : List Block)
    (wordMap : List (String × String)) (b : Block) (k : String)
    (hrel : ∀ r ∈ b.relationships.getD [], r.relType ≠ RelType.value)
    (hk : alistGet? (firstPass blocks wordMap).1 k = some []) :
    keyValueIds b = [] ∧
    alistGet? (extract_form_fields_advanced blocks wordMap) k = some "" := by
  constructor
  · unfold keyValueIds
    have hgen : ∀ (rels : List Relationship) (acc : List String),
        (∀ r ∈ rels, r.relType ≠ RelType.value) →
        rels.foldl (fun acc r => if r.relType = RelType.value then r.ids else acc)
          acc = acc := by
      intro rels
      induction rels with
      | nil => intro acc _; rfl
      | cons r rest ih =>
          intro acc hno
          rw [List.foldl_cons, if_neg (hno r (List.mem_cons_self r rest))]
          exact ih acc fun r' hr' => hno r' (List.mem_cons_of_mem r hr')
    exact hgen _ [] hrel
  · have hnd : (alistKeys (firstPass blocks wordMap).1).Nodup :=
      firstPass_fold_nodup wordMap blocks ([], []) (by simp [alistKeys])
    unfold extract_form_fields_advanced
    rw [secondPass_fold_lookup (fieldValue (firstPass blocks wordMap).2)
      (firstPass blocks wordMap).1 [] k hnd, hk]
    rfl

/-- Witness for C4's amended theorem at the counterexample's block list. -/
theorem C4_no_value_edge_empty_string_witness :
    alistGet? (extract_form_fields_advanced
        [⟨"k1", "KEY_VALUE_SET", none, none, ["KEY"],
          some [⟨RelType.child, ["w1"]⟩]⟩]
        [("w1", "Name")]) "Name" = some "" :=
  (C4_no_value_edge_empty_string
      [⟨"k1", "KEY_VALUE_SET", none, none, ["KEY"],
        some [⟨RelType.child, ["w1"]⟩]⟩]
      [("w1", "Name")]
      ⟨"k1", "KEY_VALUE_SET", none, none, ["KEY"],
        some [⟨RelType.child, ["w1"]⟩]⟩
      "Name" (by simp) rfl).2

/-- C9: extract_text_by_type returns exactly the Text fields of the blocks
whose BlockType equals the requested tag, in the same relative order in
which those blocks appear in the response list (the order-preserving
projection of the filtered subsequence), provided every matching block
carries a Text field. -/
theorem C9_extract_text_by_type_filter (blocks : List Block) (bt : String)
    (h : ∀ b ∈ blocks, b.blockType = bt → (Block.text b).isSome) :
    extract_text_by_type blocks bt =
      Except.ok ((blocks.filter fun b => b.blockType == bt).filterMap Block.text) := by
  induction blocks with
  | nil => simp [extract_text_by_type]
  | cons b rest ih =>
      have hrest : ∀ b' ∈ rest, b'.blockType = bt → (Block.text b').isSome :=
        fun b' hb' => h b' (List.mem_cons_of_mem b hb')
      by_cases hb : b.blockType = bt
      · obtain ⟨t, ht⟩ := Option.isSome_iff_exists.mp
          (h b (List.mem_cons_self b rest) hb)
        rw [extract_text_by_type, if_pos hb, ht, ih hrest]
        simp [Except.map, List.filter_cons, hb, ht]
      · rw [extract_text_by_type, if_neg hb, ih hrest]
        have hbeq : (b.blockType == bt) = false := by
          simpa using hb
        simp [List.filter_cons, hbeq]

/-- Witness for C9 at a concrete block list with two LINE blocks and one
WORD block. -/
theorem C9_extract_text_by_type_filter_witness :
    extract_text_by_type
      [⟨"b1", "LINE", some "hello", none, [], none⟩,
       ⟨"b2", "WORD", some "x", none, [], none⟩,
       ⟨"b3", "LINE", some "world", none, [], none⟩] "LINE" =
      Except.ok ["hello", "world"] := by
  have h := C9_extract_text_by_type_filter
    [⟨"b1", "LINE", some "hello", none, [], none⟩,
     ⟨"b2", "WORD", some "x", none, [], none⟩,
     ⟨"b3", "LINE", some "world", none, [], none⟩] "LINE"
    (by intro b hb hbt; fin_cases hb <;> simp)
  exact h

/-- C1: LLMClient.invoke has a retry budget of exactly 3 attempts: with
non-validation exceptions on attempts 1 and 2 (1-based), sleeping
2 * 1 and 2 * 2 time-units after them, a non-validation exception on
attempt 3 fails with a ProcessingError "Max retries exceeded" carrying
the last cause; a success on attempt 3 returns that attempt's serialized
value; a validation failure on attempt 3 fails with a ProcessingError
"Validation failed for LLM response" carrying the validation error. -/
theorem C1_invoke_retry_policy {α ε : Type} (attempts : Nat → AttemptOutcome α ε)
    (e1 e2 : ε)
    (h0 : attempts 0 = AttemptOutcome.otherError e1)
    (h1 : attempts 1 = AttemptOutcome.otherError e2) :
    (∀ e3, attempts 2 = AttemptOutcome.otherError e3 →
        LLMClient.invoke attempts =
          ⟨Except.error ⟨"Max retries exceeded", some e3⟩, [2 * 1, 2 * 2], 3⟩) ∧
    (∀ v, attempts 2 = AttemptOutcome.success v →
        LLMClient.invoke attempts = ⟨Except.ok v, [2 * 1, 2 * 2], 3⟩) ∧
    (∀ ve, attempts 2 = AttemptOutcome.validationError ve →
        LLMClient.invoke attempts =
          ⟨Except.error ⟨"Validation failed for LLM response", some ve⟩,
            [2 * 1, 2 * 2], 3⟩) := by
  refine ⟨fun e3 h2 => ?_, fun v h2 => ?_, fun ve h2 => ?_⟩ <;>
    simp [LLMClient.invoke, invokeGo, h0, h1, h2]

/-- Witness for C1 at a concrete failing-attempts sequence. -/
theorem C1_invoke_retry_policy_witness :
    LLMClient.invoke (fun n => (AttemptOutcome.otherError n : AttemptOutcome Nat Nat)) =
      ⟨Except.error ⟨"Max retries exceeded", some 2⟩, [2 * 1, 2 * 2], 3⟩ :=
  (C1_invoke_retry_policy (fun n => (AttemptOutcome.otherError n : AttemptOutcome Nat Nat))
    0 1 rfl rfl).1 2 rfl

/-- C2 counterexample: for input text = "" the model IS invoked, because
process_form_data only checks `input_content is None` and the empty
string passes that check; with the recognized pydantic key "resume" and a
model oracle that succeeds immediately, the model call count is 1,
not 0. -/
theorem C2_empty_input_invokes_model :
    (process_form_data (some "resume") true (some "")
        (fun _ => (Except.ok () : Except Nat Unit))
        (fun _ => (AttemptOutcome.success 0 : AttemptOutcome Nat Nat))).modelCalls
      = 1 ∧
    (process_form_data (some "resume") true (some "")
        (fun _ => (Except.ok () : Except Nat Unit))
        (fun _ => (AttemptOutcome.success 0 : AttemptOutcome Nat Nat))).modelCalls
      ≠ 0 :=
  ⟨rfl, by decide⟩

/-- C2 amended: only a None input triggers the invalid-input fast-fail,
as a ProcessingError "Processing failed" wrapping the ValueError, with
zero model invocations; an unrecognized data_schema_key under the
pydantic strategy also fails with "Processing failed" (KeyError cause)
and zero model invocations; and whenever strategy selection and
preparation succeed (a key recognized by DATA_SCHEMA_MAPPER under the
pydantic strategy, or a successful schema download under the JSON-schema
strategy), every non-null input string, including "", reaches the model,
which is invoked at least once. -/
theorem C2_null_input_fails_before_model {α ε : Type}
    (data_schema_key : Option String) (use_pydantic : Bool)
    (downloadSchema : String → Except ε Unit)
    (attempts : Nat → AttemptOutcome α ε) :
    (process_form_data data_schema_key use_pydantic none downloadSchema attempts =
      ⟨Except.error ⟨"Processing failed",
        some (PFDCause.valueError
          "Input content must be provided. input_content cannot be None.")⟩, 0⟩) ∧
    (∀ key s, use_pydantic = true → alistGet? DATA_SCHEMA_MAPPER key = none →
      process_form_data (some key) use_pydantic (some s) downloadSchema attempts =
        ⟨Except.error ⟨"Processing failed",
          some (PFDCause.keyError (some key))⟩, 0⟩) ∧
    (∀ key s sch, use_pydantic = true →
      alistGet? DATA_SCHEMA_MAPPER key = some sch →
      1 ≤ (process_form_data (some key) use_pydantic (some s) downloadSchema
        attempts).modelCalls) ∧
    (∀ k s, use_pydantic = false →
      downloadSchema (k.getD "None" ++ ".json") = Except.ok () →
      1 ≤ (process_form_data k use_pydantic (some s) downloadSchema
        attempts).modelCalls) := by
  have h1 : 1 ≤ (LLMClient.invoke attempts).calls := by
    cases h : attempts 0 <;> simp [LLMClient.invoke, invokeGo, h]
  have hcalls : 1 ≤ (runInvoke attempts).modelCalls := by
    unfold runInvoke
    cases hres : (LLMClient.invoke attempts).result <;> simpa [hres] using h1
  refine ⟨rfl, ?_, ?_, ?_⟩
  · intro key s hpy hkey
    subst hpy
    simp [process_form_data, hkey]
  · intro key s sch hpy hkey
    subst hpy
    simpa [process_form_data, hkey] using hcalls
  · intro k s hpy hdl
    subst hpy
    simpa [process_form_data, hdl] using hcalls

/-- Witness for C2's amended theorem at a recognized pydantic key and a
concrete oracle and input. -/
theorem C2_null_input_fails_before_model_witness :
    1 ≤ (process_form_data (some "resume") true (some "x")
        (fun _ => (Except.ok () : Except Nat Unit))
        (fun _ => (AttemptOutcome.success 0 : AttemptOutcome Nat Nat))).modelCalls :=
  (C2_null_input_fails_before_model (some "resume") true
      (fun _ => (Except.ok () : Except Nat Unit))
      (fun _ => (AttemptOutcome.success 0 : AttemptOutcome Nat Nat))).2.2.1
    "resume" "x" PydanticSchema.resume rfl rfl

/-- A Python runtime value as the serialization strategies see it:
primitives, datetimes, pydantic BaseModel instances, lists, dicts, and
any other object (sets, custom class instances, ...), each carrying an
opaque Nat payload where the content does not matter. -/
inductive PyVal where
  | primV (n : Nat)
  | datetimeV (n : Nat)
  | modelV (fields : List (String × PyVal))
  | listV (items : List PyVal)
  | dictV (fields : List (String × PyVal))
  | otherV (n : Nat)

mutual

/-- Pydantic model_dump: a BaseModel becomes a plain dict, nested models
inside containers are dumped recursively, and scalars, datetimes and
unknown objects are left as they are. -/
def modelDump : PyVal → PyVal
  | PyVal.primV n => PyVal.primV n
  | PyVal.datetimeV n => PyVal.datetimeV n
  | PyVal.modelV fields => PyVal.dictV (modelDumpFields fields)
  | PyVal.listV items => PyVal.listV (modelDumpList items)
  | PyVal.dictV fields => PyVal.dictV (modelDumpFields fields)
  | PyVal.otherV n => PyVal.otherV n

/-- Element-wise model_dump over a list. -/
def modelDumpList : List PyVal → List PyVal
  | [] => []
  | v :: rest => modelDump v :: modelDumpList rest

/-- Value-wise model_dump over dict fields. -/
def modelDumpFields : List (String × PyVal) → List (String × PyVal)
  | [] => []
  | (k, v) :: rest => (k, modelDump v) :: modelDumpFields rest

end

mutual

/-- The inner serialize helper of PydanticModelStrategy.serialize_response:
a BaseModel is dumped, a list is serialized element-wise, a dict
value-wise, and every other value, including unsupported objects, is
returned unchanged by the final catch-all return. -/
def serializeVal : PyVal → PyVal
  | PyVal.modelV fields => modelDump (PyVal.modelV fields)
  | PyVal.listV items => PyVal.listV (serializeList items)
  | PyVal.dictV fields => PyVal.dictV (serializeFields fields)
  | v => v

/-- Element-wise serialize over a list. -/
def serializeList : List PyVal → List PyVal
  | [] => []
  | v :: rest => serializeVal v :: serializeList rest

/-- Value-wise serialize over dict fields. -/
def serializeFields : List (String × PyVal) → List (String × PyVal)
  | [] => []
  | (k, v) :: rest => (k, serializeVal v) :: serializeFields rest

end

/-- PydanticModelStrategy.serialize_response: a BaseModel response is
dumped to a dict, a dict response is walked by the inner serialize
helper, and any other top-level response raises a TypeError that is
re-raised as a ValueError about an unsupported type. -/
def serialize_response (response : PyVal) : Except String PyVal :=
  match response with
  | PyVal.modelV fields => Except.ok (modelDump (PyVal.modelV fields))
  | PyVal.dictV fields => Except.ok (serializeVal (PyVal.dictV fields))
  | _ =>
      Except.error
        "Error during serialization due to unsupported type -> Response type not supported for serialization"

/-- C8 counterexample: a dict response holding a nested unsupported value
passes the JSON-safety conversion unchanged instead of raising a
serialization error, because the inner serialize helper returns every
non-model, non-list, non-dict value as-is. -/
theorem C8_nested_unsupported_passes_through :
    serialize_response (PyVal.dictV [("k", PyVal.otherV 0)]) =
      Except.ok (PyVal.dictV [("k", PyVal.otherV 0)]) ∧
    ∀ msg, serialize_response (PyVal.dictV [("k", PyVal.otherV 0)]) ≠
      Except.error msg := by
  refine ⟨rfl, fun msg h => ?_⟩
  rw [show serialize_response (PyVal.dictV [("k", PyVal.otherV 0)]) =
      Except.ok (PyVal.dictV [("k", PyVal.otherV 0)]) from rfl] at h
  exact Except.noConfusion h

/-- C8 amended: serialize_response raises the unsupported-type error only
for a top-level response that is neither a structured-record instance nor
a mapping; a mapping response is returned with its values walked by the
inner serialize helper, and a nested unsupported value passes through
that walk unchanged (no error is raised for it). -/
theorem C8_type_error_only_at_top_level (r : PyVal)
    (hm : ∀ fields, r ≠ PyVal.modelV fields)
    (hd : ∀ fields, r ≠ PyVal.dictV fields) :
    serialize_response r =
      Except.error
        "Error during serialization due to unsupported type -> Response type not supported for serialization" ∧
    (∀ fields, serialize_response (PyVal.dictV fields) =
      Except.ok (PyVal.dictV (serializeFields fields))) ∧
    (∀ n, serializeVal (PyVal.otherV n) = PyVal.otherV n) := by
  refine ⟨?_, fun fields => rfl, fun n => rfl⟩
  cases r with
  | primV n => rfl
  | datetimeV n => rfl
  | modelV fields => exact absurd rfl (hm fields)
  | listV items => rfl
  | dictV fields => exact absurd rfl (hd fields)
  | otherV n => rfl

/-- Witness for C8's amended theorem at a top-level unsupported value. -/
theorem C8_type_error_only_at_top_level_witness :
    serialize_response (PyVal.otherV 7) =
      Except.error
        "Error during serialization due to unsupported type -> Response type not supported for serialization" :=
  (C8_type_error_only_at_top_level (PyVal.otherV 7)
    (fun _ h => PyVal.noConfusion h) (fun _ h => PyVal.noConfusion h)).1

/-- Suffix test on strings by comparing character lists. -/
def strEndsWith (s t : String) : Bool := t.toList.isSuffixOf s.toList

/-- extract_text from text_extractor.py: for each file name the matching
detection path runs (async for names whose lower-cased form ends in
".pdf", sync for the rest) and its result or caught exception is only
logged; the accumulator `response` is initialized to "" and never
reassigned, so the per-file results never contribute to the returned
value. -/
def extract_text (file_names : List String)
    (asyncDetect syncDetect : String → Except String String) : String :=
  file_names.foldl
    (fun response file_name =>
      let _result :=
        if strEndsWith (lowerString file_name) ".pdf" then asyncDetect file_name
        else syncDetect file_name
      response) ""

/-- C10: extract_text returns the empty string for every list of file
names and every behavior of the per-file extraction oracles: the per-file
results never contribute to the returned value. -/
theorem C10_extract_text_returns_empty (file_names : List String)
    (asyncDetect syncDetect : String → Except String String) :
    extract_text file_names asyncDetect syncDetect = "" := by
  induction file_names with
  | nil => rfl
  | cons f rest ih =>
      unfold extract_text at ih ⊢
      rw [List.foldl_cons]
      exact ih

/-- Witness for C10 at a concrete file list and oracles. -/
theorem C10_extract_text_returns_empty_witness :
    extract_text ["a.pdf", "b.jpg"]
      (fun _ => Except.ok "pdf text") (fun _ => Except.error "boom") = "" :=
  C10_extract_text_returns_empty ["a.pdf", "b.jpg"]
    (fun _ => Except.ok "pdf text") (fun _ => Except.error "boom")

end PhyToWeb
